import Mathlib

/-!
Shallow embedding of `src/app.py` (Nemo Store dashboard).

Python numeric values (SQLite/pandas floats) are modelled as `ℚ`;
a possibly-missing numeric cell (`None` / `NaN`, detected by `pd.isna`)
is modelled as `Option ℚ` with `none` for the missing case.
-/

namespace NemoStore

/-- Python `int(...)` applied to a numeric value: truncation toward zero. -/
def pyInt (q : ℚ) : ℤ :=
  if 0 ≤ q then q.floor else -(-q).floor

/-- Python `round`-to-integer as used by the `.0f`/`.1f` format specs:
round half to even. -/
def pyRoundHalfEven (q : ℚ) : ℤ :=
  let f : ℤ := q.floor
  let r : ℚ := q - (f : ℚ)
  if r < 1/2 then f
  else if 1/2 < r then f + 1
  else if f % 2 = 0 then f else f + 1

/-- Insert a `,` after every third character of a reversed digit list
(helper for Python's `,` thousands grouping). -/
def insertCommasRev : List Char → List Char
  | [] => []
  | [a] => [a]
  | [a, b] => [a, b]
  | [a, b, c] => [a, b, c]
  | a :: b :: c :: rest => a :: b :: c :: ',' :: insertCommasRev rest

/-- Python thousands grouping of a natural number, e.g. `12345 ↦ "12,345"`. -/
def commaGroup (n : ℕ) : String :=
  String.mk ((insertCommasRev (toString n).toList.reverse).reverse)

/-- Python `f"{q:,.0f}"`: round half to even to an integer, thousands-grouped,
with a sign taken from the value. -/
def pyFormatComma0f (q : ℚ) : String :=
  let n : ℤ := pyRoundHalfEven q
  (if q < 0 then "-" else "") ++ commaGroup n.natAbs

/-- Python `f"{q:.1f}"`: one fractional digit, round half to even, no grouping. -/
def pyFormat1f (q : ℚ) : String :=
  let n : ℤ := pyRoundHalfEven (q * 10)
  let a : ℕ := n.natAbs
  (if q < 0 then "-" else "") ++ toString (a / 10) ++ "." ++ toString (a % 10)

/-- `convert_price(val, to_unit)` from `src/app.py`:
`0` for a missing value; `int(val * 1000)` for unit `"원"`;
`val / 10` otherwise (unit `"만"`). -/
def convert_price (val : Option ℚ) (to_unit : String) : ℚ :=
  match val with
  | none => 0
  | some v =>
    if to_unit = "원" then ((pyInt (v * 1000) : ℤ) : ℚ)
    else v / 10

/-- `int(val // 10000)` of `format_price_display`: the 억 digit group.
Python float `//` is floor division, and `int` of its result is that floor. -/
def eokPart (val : ℚ) : ℤ := (val / 10000).floor

/-- `int(val % 10000)` of `format_price_display`: Python float `%` returns
`val - 10000 * (val // 10000)` (in `[0, 10000)`), and `int` of that
nonnegative value is its floor. -/
def manPart (val : ℚ) : ℤ := (val - 10000 * ((val / 10000).floor : ℚ)).floor

/-- `format_price_display(val, unit)` from `src/app.py`. -/
def format_price_display (val : ℚ) (unit : String) : String :=
  if val = 0 then "-"
  else if unit = "만" then
    if 10000 ≤ val then
      if 0 < manPart val then
        toString (eokPart val) ++ "억 " ++ commaGroup (manPart val).natAbs ++ "만"
      else toString (eokPart val) ++ "억"
    else pyFormatComma0f val ++ "만"
  else "₩" ++ pyFormatComma0f val

/-! ### JSON list decoding in `load_db_data` (src/app.py lines 72-82) -/

/-- One raw SQLite cell of a list-valued (photo-URL) column:
a TEXT value or SQL `NULL` (Python `None`). -/
inductive DbCell where
  | str (v : String)
  | null
deriving DecidableEq

/-- The value such a cell holds after the `df[col].apply(...)` transform:
either the original string passed through unchanged, or a decoded list. -/
inductive CellVal where
  | str (v : String)
  | list (l : List String)
deriving DecidableEq

/-- Drop leading JSON whitespace. -/
def skipWs : List Char → List Char
  | [] => []
  | c :: cs => if c = ' ' ∨ c = '\t' ∨ c = '\n' ∨ c = '\r' then skipWs cs else c :: cs

/-- Value of a hexadecimal digit, if any. -/
def hexVal (c : Char) : Option ℕ :=
  if '0' ≤ c ∧ c ≤ '9' then some (c.toNat - '0'.toNat)
  else if 'a' ≤ c ∧ c ≤ 'f' then some (c.toNat - 'a'.toNat + 10)
  else if 'A' ≤ c ∧ c ≤ 'F' then some (c.toNat - 'A'.toNat + 10)
  else none

/-- JSON single-character escape codes. -/
def escChar (c : Char) : Option Char :=
  if c = '"' then some '"'
  else if c = '\\' then some '\\'
  else if c = '/' then some '/'
  else if c = 'b' then some (Char.ofNat 8)
  else if c = 'f' then some (Char.ofNat 12)
  else if c = 'n' then some '\n'
  else if c = 'r' then some (Char.ofNat 13)
  else if c = 't' then some '\t'
  else none

/-- Body of a JSON string after its opening quote: the decoded characters and
the input after the closing quote.  `\uXXXX` is decoded as a single code point
(surrogate pairs are out of scope for this model of `json.loads`). -/
def parseJStringBody : List Char → Option (List Char × List Char)
  | [] => none
  | '"' :: rest => some ([], rest)
  | '\\' :: 'u' :: h1 :: h2 :: h3 :: h4 :: rest => do
    let v1 ← hexVal h1
    let v2 ← hexVal h2
    let v3 ← hexVal h3
    let v4 ← hexVal h4
    let (s, r) ← parseJStringBody rest
    some (Char.ofNat (((v1 * 16 + v2) * 16 + v3) * 16 + v4) :: s, r)
  | '\\' :: e :: rest => do
    let c ← escChar e
    let (s, r) ← parseJStringBody rest
    some (c :: s, r)
  | c :: rest => do
    let (s, r) ← parseJStringBody rest
    some (c :: s, r)

/-- Comma-separated JSON strings up to a closing `]` (fuel-bounded). -/
def parseElems : ℕ → List Char → Option (List String × List Char)
  | 0, _ => none
  | fuel + 1, l =>
    match skipWs l with
    | '"' :: rest => do
      let (s, rest2) ← parseJStringBody rest
      match skipWs rest2 with
      | ',' :: rest3 => do
        let (ss, r) ← parseElems fuel rest3
        some (String.mk s :: ss, r)
      | ']' :: rest3 => some ([String.mk s], rest3)
      | _ => none
    | _ => none

/-- `json.loads` as used on the photo-URL columns: parses a JSON array of
strings; any other document (including any malformed text) raises, modelled
as `Except.error` (Python `json.JSONDecodeError`). -/
def json_loads_strlist (s : String) : Except String (List String) :=
  match skipWs s.toList with
  | '[' :: rest =>
    match skipWs rest with
    | ']' :: tail =>
      if (skipWs tail).isEmpty then .ok [] else .error "JSONDecodeError"
    | _ =>
      match parseElems (rest.length + 1) rest with
      | some (ss, tail) =>
        if (skipWs tail).isEmpty then .ok ss else .error "JSONDecodeError"
      | none => .error "JSONDecodeError"
  | _ => .error "JSONDecodeError"

/-- `x.startswith('[')`. -/
def startsWithBracket (v : String) : Bool :=
  match v.toList with
  | '[' :: _ => true
  | _ => false

/-- The per-cell lambda of `load_db_data`:
`json.loads(x) if isinstance(x, str) and x.startswith('[') else (x if x else [])`.
A `json.loads` failure propagates out of the lambda as `Except.error`. -/
def decode_list_cell (x : DbCell) : Except String CellVal :=
  match x with
  | .null => .ok (.list [])
  | .str v =>
    if startsWithBracket v then (json_loads_strlist v).map .list
    else if v = "" then .ok (.list [])
    else .ok (.str v)

/-- `df[col] = df[col].apply(lambda ...)` over one list-valued column:
the first failing cell aborts the whole column transform. -/
def decode_column (cells : List DbCell) : Except String (List CellVal) :=
  cells.mapM decode_list_cell

/-- The `try/except` of `load_db_data`, restricted to one list-valued column:
on success the decoded column is returned; on any exception `st.error` is
shown (second component `true`) and an empty table results. -/
def load_db_data (cells : List DbCell) : List CellVal × Bool :=
  match decode_column cells with
  | .ok l => (l, false)
  | .error _ => ([], true)

/-! ### The normalized listings table (src/app.py lines 160-173) -/

/-- One raw row as read from the `nemo_stores` table (only the columns the
dashboard logic touches).  Price fields are `Option ℚ`: `none` models a SQL
`NULL` / pandas `NaN`. -/
structure RawRow where
  title : String
  business_middle_code_name : String
  near_subway_station : Option String
  is_premium_closed : Bool
  deposit : Option ℚ
  monthly_rent : Option ℚ
  premium : Option ℚ
  maintenance_fee : Option ℚ
  sale : Option ℚ
  size : ℚ
  created_date_utc : ℕ
deriving DecidableEq

/-- A row of `df` after preprocessing: the raw columns plus the derived
`*_disp` display columns and the derived `regDate` calendar date. -/
structure Row extends RawRow where
  deposit_disp : ℚ
  monthly_rent_disp : ℚ
  premium_disp : ℚ
  maintenance_fee_disp : ℚ
  sale_disp : ℚ
  regDate : ℕ
deriving DecidableEq

/-- `pd.to_datetime(created_date_utc).dt.date`: truncation of a timestamp
(seconds) to its calendar day. -/
def dateOf (t : ℕ) : ℕ := t / 86400

/-- The preprocessing loop over `price_cols` plus the date derivation:
every `*_disp` column is computed by `convert_price` with the single
`target_unit` chosen in the sidebar. -/
def normalizeRow (target_unit : String) (r : RawRow) : Row :=
  { r with
    deposit_disp := convert_price r.deposit target_unit
    monthly_rent_disp := convert_price r.monthly_rent target_unit
    premium_disp := convert_price r.premium target_unit
    maintenance_fee_disp := convert_price r.maintenance_fee target_unit
    sale_disp := convert_price r.sale target_unit
    regDate := dateOf r.created_date_utc }

/-- The five derived display values of a raw row, in `price_cols` order. -/
def disp_columns (target_unit : String) (r : RawRow) : List ℚ :=
  [convert_price r.deposit target_unit,
   convert_price r.monthly_rent target_unit,
   convert_price r.premium target_unit,
   convert_price r.maintenance_fee target_unit,
   convert_price r.sale target_unit]

/-! ### String containment and the `str.contains` regex model -/

/-- `needle` occurs contiguously in `hay` (plain substring containment;
Python's `needle in hay`). -/
def containsSub (hay needle : List Char) : Bool :=
  match hay with
  | [] => needle.isEmpty
  | _ :: t => needle.isPrefixOf hay || containsSub t needle

/-- Python `needle in hay` on strings. -/
def pyIn (needle hay : String) : Bool := containsSub hay.toList needle.toList

/-- Characters with a special meaning in Python regular expressions. -/
def isRegexMeta (c : Char) : Bool :=
  c = '.' ∨ c = '^' ∨ c = '$' ∨ c = '*' ∨ c = '+' ∨ c = '?' ∨ c = '{' ∨
  c = '}' ∨ c = '[' ∨ c = ']' ∨ c = '\\' ∨ c = '|' ∨ c = '(' ∨ c = ')'

/-- Regex match of a pattern against a prefix of `s`, for the fragment of
Python regex syntax in which every pattern character is a literal except
`.`, which matches any character.  Models `re` behaviour only for patterns
whose characters are all non-metacharacters or `.`. -/
def simpleMatchAt : List Char → List Char → Bool
  | [], _ => true
  | _ :: _, [] => false
  | p :: ps, c :: cs => (p = '.' ∨ p = c) && simpleMatchAt ps cs

/-- `re.search` for the same pattern fragment: the pattern matches at some
position of `s`. -/
def simpleSearch : List Char → List Char → Bool
  | pat, [] => pat.isEmpty
  | pat, s@(_ :: cs) => simpleMatchAt pat s || simpleSearch pat cs

/-! ### Filtering (src/app.py lines 186-213) -/

/-- `df['monthly_rent_disp'].min()` (the table is nonempty when reached). -/
def colMinD : List ℚ → ℚ
  | [] => 0
  | x :: xs => xs.foldl min x

/-- `df['monthly_rent_disp'].max()`. -/
def colMaxD : List ℚ → ℚ
  | [] => 0
  | x :: xs => xs.foldl max x

/-- Pre-filter minimum of the unit-converted rent column (line 193). -/
def min_rent (df : List Row) : ℚ := colMinD (df.map (fun r => r.monthly_rent_disp))

/-- Pre-filter maximum of the unit-converted rent column (line 194). -/
def max_rent (df : List Row) : ℚ := colMaxD (df.map (fun r => r.monthly_rent_disp))

/-- Category criterion as a row predicate: pass-through when `sel_ind`
is `"전체"`, else equality with `business_middle_code_name`. -/
def catPred (sel : String) (r : Row) : Bool :=
  sel = "전체" ∨ r.business_middle_code_name = sel

/-- Location criterion as a row predicate: pass-through when the search text
is empty; otherwise `near_subway_station.str.contains(search, na=False)`:
a missing field yields `False`, a present field is regex-searched. -/
def stationPred (search : String) (r : Row) : Bool :=
  search = "" ||
    match r.near_subway_station with
    | some s => simpleSearch search.toList s.toList
    | none => false

/-- Undisclosed-premium criterion as a row predicate: pass-through when the
checkbox is off; otherwise keeps rows with `is_premium_closed == False`. -/
def premPred (hide : Bool) (r : Row) : Bool :=
  !hide || !r.is_premium_closed

/-- Rent-range criterion as a row predicate (inclusive bounds). -/
def rentPred (lo hi : ℚ) (r : Row) : Bool :=
  decide (lo ≤ r.monthly_rent_disp) && decide (r.monthly_rent_disp ≤ hi)

/-- The four filter criteria of the sidebar, as row predicates. -/
def fourPreds (sel search : String) (hide : Bool) (lo hi : ℚ) : List (Row → Bool) :=
  [catPred sel, stationPred search, premPred hide, rentPred lo hi]

/-- Apply a list of row predicates left to right, each as one
`f_df = f_df[...]` step. -/
def applyFilters (ps : List (Row → Bool)) (df : List Row) : List Row :=
  ps.foldl (fun t p => t.filter p) df

/-- The filtering block of src/app.py lines 204-213, literally: each step is
guarded as in the source (`sel_ind != "전체"`, truthiness of
`search_station`, the checkbox, and column presence). -/
def f_df (sel search : String)
    (hasStationCol hidePremium hasPremCol hasRentCol : Bool)
    (lo hi : ℚ) (df : List Row) : List Row :=
  let t1 := if sel ≠ "전체" then
      df.filter (fun r => r.business_middle_code_name = sel) else df
  let t2 := if search ≠ "" ∧ hasStationCol then
      t1.filter (fun r =>
        match r.near_subway_station with
        | some s => simpleSearch search.toList s.toList
        | none => false)
    else t1
  let t3 := if hidePremium ∧ hasPremCol then
      t2.filter (fun r => r.is_premium_closed = false) else t2
  if hasRentCol then t3.filter (rentPred lo hi) else t3

/-! ### Aggregation views (src/app.py lines 224-291) -/

/-- Insert into a sorted list (helper for the sort behind `median`). -/
def insertSorted {α : Type} [LinearOrder α] (x : α) : List α → List α
  | [] => [x]
  | y :: ys => if x ≤ y then x :: y :: ys else y :: insertSorted x ys

/-- Sort a list ascending. -/
def sortL {α : Type} [LinearOrder α] (l : List α) : List α :=
  l.foldr insertSorted []

/-- `Series.median()` of a nonempty column: middle element of the sorted
values, or the mean of the two middle elements. -/
def medianList (l : List ℚ) : ℚ :=
  let s := sortL l
  let n := l.length
  if n % 2 = 1 then s.getD (n / 2) 0
  else (s.getD (n / 2 - 1) 0 + s.getD (n / 2) 0) / 2

/-- `Series.mean()` of a nonempty column. -/
def meanList (l : List ℚ) : ℚ := l.foldl (· + ·) 0 / l.length

/-- KPI 1: `f"{len(f_df)} 건"`. -/
def kpi_count (f : List Row) : String := toString f.length ++ " 건"

/-- KPI 2: median monthly rent, guarded by `not f_df.empty` and column
presence; `"-"` otherwise. -/
def kpi_median_rent (hasCol : Bool) (f : List Row) (target_unit : String) : String :=
  if f ≠ [] ∧ hasCol then
    format_price_display (medianList (f.map (fun r => r.monthly_rent_disp))) target_unit
  else "-"

/-- KPI 3: median deposit, same guard. -/
def kpi_median_deposit (hasCol : Bool) (f : List Row) (target_unit : String) : String :=
  if f ≠ [] ∧ hasCol then
    format_price_display (medianList (f.map (fun r => r.deposit_disp))) target_unit
  else "-"

/-- KPI 4: mean size `f"{val:.1f} ㎡"`, same guard. -/
def kpi_mean_size (hasCol : Bool) (f : List Row) : String :=
  if f ≠ [] ∧ hasCol then pyFormat1f (meanList (f.map (fun r => r.size))) ++ " ㎡"
  else "-"

/-- `f_df.groupby('regDate').size()`: one `(date, count)` pair per distinct
date, dates ascending. -/
def groupByDateCounts (f : List Row) : List (ℕ × ℕ) :=
  let ds := f.map (fun r => r.regDate)
  ((sortL ds).dedup).map (fun d => (d, ds.count d))

/-- The trend block (lines 280-291): the chart data when the date column
exists and the filtered table is nonempty, `none` for the "no data" branch. -/
def trendView (hasDateCol : Bool) (f : List Row) : Option (List (ℕ × ℕ)) :=
  if hasDateCol ∧ f ≠ [] then some (groupByDateCounts f) else none

/-! ### Table formatting, detail panel and comment (src/app.py lines 306-365) -/

/-- The four formatted price strings of one table row, in `price_map` order
(보증금, 월세, 권리금, 관리비), each via `format_price_display(x, target_unit)`. -/
def tablePriceStrings (target_unit : String) (r : Row) : List String :=
  [format_price_display r.deposit_disp target_unit,
   format_price_display r.monthly_rent_disp target_unit,
   format_price_display r.premium_disp target_unit,
   format_price_display r.maintenance_fee_disp target_unit]

/-- The four `st.metric` price strings of the detail panel (lines 351-355),
in reading order 보증금, 월세, 권리금, 관리비. -/
def detailPriceStrings (target_unit : String) (r : Row) : List String :=
  [format_price_display r.deposit_disp target_unit,
   format_price_display r.monthly_rent_disp target_unit,
   format_price_display r.premium_disp target_unit,
   format_price_display r.maintenance_fee_disp target_unit]

/-- The agent-comment branch of the detail panel (lines 361-365):
`base_comment` (or its own placeholder when that text is empty) only when
the title contains `"이촌"`; the static unavailable string otherwise. -/
def resolveComment (title base_comment : String) : String :=
  if pyIn "이촌" title then
    if base_comment ≠ "" then base_comment else "상세 코멘트 준비 중입니다."
  else "중개사 상세 설명이 등록되지 않은 매물입니다."

/-! ### Concrete sample data -/

/-- A sample raw row. -/
def rawRow1 : RawRow :=
  { title := "서울 이촌동 카페 매물"
    business_middle_code_name := "카페"
    near_subway_station := some "이촌역 도보 5분"
    is_premium_closed := false
    deposit := some 1000
    monthly_rent := some 500
    premium := none
    maintenance_fee := some 100
    sale := none
    size := 33
    created_date_utc := 1700000000 }

/-- A sample normalized row (카페, near 이촌역, rent 50 in the display unit). -/
def row1 : Row :=
  { toRawRow := rawRow1
    deposit_disp := 100
    monthly_rent_disp := 50
    premium_disp := 0
    maintenance_fee_disp := 10
    sale_disp := 0
    regDate := 19675 }

/-- A second sample normalized row (식당, no station info, undisclosed
premium, rent 50 in the display unit). -/
def row2 : Row :=
  { title := "강남 식당 매물"
    business_middle_code_name := "식당"
    near_subway_station := none
    is_premium_closed := true
    deposit := some 2000
    monthly_rent := some 500
    premium := some 300
    maintenance_fee := none
    sale := none
    size := 60
    created_date_utc := 1700200000
    deposit_disp := 200
    monthly_rent_disp := 50
    premium_disp := 30
    maintenance_fee_disp := 0
    sale_disp := 0
    regDate := 19677 }

section Theorems

/-- `Rat.floor` agrees with the mathematical floor `⌊·⌋` on `ℚ`. -/
theorem rat_floor_eq_floor (q : ℚ) : q.floor = ⌊q⌋ :=
  le_antisymm (Int.le_floor.mpr (Rat.le_floor.mp le_rfl))
    (Rat.le_floor.mpr (Int.floor_le q))

/-- Evaluation rule for `Rat.floor` from two rational inequalities. -/
theorem ratFloor_eq_of (q : ℚ) (z : ℤ) (h1 : (z : ℚ) ≤ q) (h2 : q < z + 1) :
    q.floor = z := by
  rw [rat_floor_eq_floor]
  exact Int.floor_eq_iff.mpr ⟨h1, by exact_mod_cast h2⟩

/-- `Rat.floor` of an integer cast. -/
theorem ratFloor_intCast (z : ℤ) : ((z : ℚ)).floor = z := by
  rw [rat_floor_eq_floor]; exact Int.floor_intCast z

/-- `pyRoundHalfEven` is the identity on integer casts. -/
theorem pyRoundHalfEven_intCast (z : ℤ) : pyRoundHalfEven (z : ℚ) = z := by
  unfold pyRoundHalfEven
  rw [ratFloor_intCast]
  norm_num

/-- `pyFormatComma0f` on a nonnegative integer cast is plain grouping. -/
theorem pyFormatComma0f_natCast (n : ℕ) : pyFormatComma0f (n : ℚ) = commaGroup n := by
  unfold pyFormatComma0f
  have h : ((n : ℤ) : ℚ) = (n : ℚ) := by push_cast; ring
  rw [← h, pyRoundHalfEven_intCast]
  have h2 : ¬ ((n : ℚ) < 0) := not_lt.mpr (by positivity)
  simp [h2]

/-- A `Bool`-valued `all` over a list of predicates is permutation-invariant. -/
theorem all_apply_perm {α : Type} {l1 l2 : List (α → Bool)} (h : l1.Perm l2) (x : α) :
    l1.all (fun p => p x) = l2.all (fun p => p x) := by
  rw [Bool.eq_iff_iff, List.all_eq_true, List.all_eq_true]
  constructor
  · intro H p hp
    exact H p (h.mem_iff.mpr hp)
  · intro H p hp
    exact H p (h.mem_iff.mp hp)

/-- `applyFilters` is the filter by the conjunction of its predicates. -/
theorem applyFilters_eq_filter_all {ps : List (Row → Bool)} {df : List Row} :
    applyFilters ps df = df.filter (fun r => ps.all (fun p => p r)) := by
  induction ps generalizing df with
  | nil => simp [applyFilters]
  | cons p ps ih =>
    show applyFilters ps (df.filter p) = _
    rw [ih, List.filter_filter]
    simp [Bool.and_comm]

/-- C1: `convert_price` is exact division by 10 in the minor unit; in the
major unit it is `v * 1000` truncated to an integer, hence exactly
`v * 1000` whenever that product is an integer (in particular for every
integer-valued stored price); a missing value converts to 0 in either unit. -/
theorem C1_convert_price (v : ℚ) (hv : 0 ≤ v) :
    convert_price (some v) "만" = v / 10 ∧
    convert_price (some v) "원" = (((v * 1000).floor : ℤ) : ℚ) ∧
    (∀ n : ℤ, v * 1000 = (n : ℚ) → convert_price (some v) "원" = v * 1000) ∧
    ∀ u : String, convert_price none u = 0 := by
  refine ⟨?_, ?_, ?_, fun u => rfl⟩
  · simp only [convert_price]
    rw [if_neg (by decide)]
  · simp only [convert_price, pyInt]
    rw [if_pos trivial, if_pos (mul_nonneg hv (by norm_num))]
  · intro n hn
    simp only [convert_price, pyInt]
    rw [if_pos trivial, if_pos (mul_nonneg hv (by norm_num)), hn, ratFloor_intCast]

/-- Witness for `C1_convert_price` at the stored value 3. -/
theorem C1_convert_price_witness :
    (0:ℚ) ≤ 3 ∧ convert_price (some 3) "만" = 3 / 10 ∧
      convert_price (some 3) "원" = 3 * 1000 :=
  ⟨by norm_num, (C1_convert_price 3 (by norm_num)).1,
    (C1_convert_price 3 (by norm_num)).2.2.1 3000 (by norm_num)⟩

/-- C1 as stated fails on the code: for the stored value `1/2000 ≥ 0`
(price columns are pandas floats, so non-integer values are in the
function's domain), `int(val * 1000)` truncates `0.5` to `0`, so the
major-unit conversion is not exactly `v * 1000`. -/
theorem C1_counterexample :
    convert_price (some (1/2000)) "원" = 0 ∧ (1/2000 : ℚ) * 1000 ≠ 0 := by
  constructor
  · simp only [convert_price, pyInt]
    rw [if_pos trivial, if_pos (by norm_num)]
    rw [show (1/2000 : ℚ) * 1000 = 1/2 by norm_num]
    rw [ratFloor_eq_of _ 0 (by norm_num) (by norm_num)]
    norm_num
  · norm_num

/-- C3: the concrete renderings of `format_price_display` fixed by the spec:
`"-"` at 0 for both units, the 억/만 split in the minor unit (including a
three-digit 억 group), and the ₩-prefixed grouped integer in the major unit. -/
theorem C3_format_price_display :
    format_price_display 0 "만" = "-" ∧
    format_price_display 0 "원" = "-" ∧
    format_price_display 10000 "만" = "1억" ∧
    format_price_display 12345 "만" = "1억 2,345만" ∧
    format_price_display 9999 "만" = "9,999만" ∧
    format_price_display 1500 "원" = "₩1,500" ∧
    format_price_display 1234567 "만" = "123억 4,567만" := by
  refine ⟨?_, ?_, ?_, ?_, ?_, ?_, ?_⟩
  · unfold format_price_display; norm_num
  · unfold format_price_display; norm_num
  · unfold format_price_display
    have he : eokPart (10000 : ℚ) = 1 := by
      unfold eokPart; exact ratFloor_eq_of _ 1 (by norm_num) (by norm_num)
    have hm : manPart (10000 : ℚ) = 0 := by
      unfold manPart eokPart at *
      rw [(by exact ratFloor_eq_of _ 1 (by norm_num) (by norm_num) :
        ((10000:ℚ)/10000).floor = 1)]
      exact ratFloor_eq_of _ 0 (by norm_num) (by norm_num)
    rw [if_neg (by norm_num), if_pos rfl, if_pos (by norm_num),
      if_neg (by rw [hm]; norm_num), he]
    decide
  · unfold format_price_display
    have he : eokPart (12345 : ℚ) = 1 := by
      unfold eokPart; exact ratFloor_eq_of _ 1 (by norm_num) (by norm_num)
    have hm : manPart (12345 : ℚ) = 2345 := by
      unfold manPart eokPart at *
      rw [(by exact ratFloor_eq_of _ 1 (by norm_num) (by norm_num) :
        ((12345:ℚ)/10000).floor = 1)]
      exact ratFloor_eq_of _ 2345 (by norm_num) (by norm_num)
    rw [if_neg (by norm_num), if_pos rfl, if_pos (by norm_num),
      if_pos (by rw [hm]; norm_num), he, hm]
    decide
  · unfold format_price_display
    rw [if_neg (by norm_num), if_pos rfl, if_neg (by norm_num)]
    rw [show (9999 : ℚ) = ((9999 : ℕ) : ℚ) by norm_num, pyFormatComma0f_natCast]
    decide
  · unfold format_price_display
    rw [if_neg (by norm_num), if_neg (by decide)]
    rw [show (1500 : ℚ) = ((1500 : ℕ) : ℚ) by norm_num, pyFormatComma0f_natCast]
    decide
  · unfold format_price_display
    have he : eokPart (1234567 : ℚ) = 123 := by
      unfold eokPart; exact ratFloor_eq_of _ 123 (by norm_num) (by norm_num)
    have hm : manPart (1234567 : ℚ) = 4567 := by
      unfold manPart eokPart at *
      rw [(by exact ratFloor_eq_of _ 123 (by norm_num) (by norm_num) :
        ((1234567:ℚ)/10000).floor = 123)]
      exact ratFloor_eq_of _ 4567 (by norm_num) (by norm_num)
    rw [if_neg (by norm_num), if_pos rfl, if_pos (by norm_num),
      if_pos (by rw [hm]; norm_num), he, hm]
    decide

/-- C2 as stated fails on the code: the per-cell decode does not fail soft
to an empty sequence on every malformed value.  A non-empty cell that does
not begin with `[` (such as `"oops"`) is passed through unchanged as a
string, not decoded to an empty list; and a malformed cell that does begin
with `[` makes `json.loads` raise out of the per-cell lambda. -/
theorem C2_counterexample :
    decode_list_cell (DbCell.str "oops") = Except.ok (CellVal.str "oops") ∧
    CellVal.str "oops" ≠ CellVal.list [] ∧
    decode_list_cell (DbCell.str "[oops") = Except.error "JSONDecodeError" := by
  refine ⟨rfl, by decide, rfl⟩

/-- C2 amended: `None` and empty cells decode to the empty list; a non-empty
cell not starting with `[` is passed through unchanged; a well-formed JSON
array of strings decodes to the ordered list of its elements; and a decode
failure anywhere in the column aborts the whole load, which fails soft to an
empty table inside `load_db_data` (`st.error` shown), so no exception ever
reaches `load_db_data`'s caller. -/
theorem C2_decode_fail_soft (v : String) (cells : List DbCell) (e : String)
    (hv : v ≠ "") (hb : startsWithBracket v = false)
    (herr : decode_column cells = Except.error e) :
    decode_list_cell DbCell.null = Except.ok (CellVal.list []) ∧
    decode_list_cell (DbCell.str "") = Except.ok (CellVal.list []) ∧
    decode_list_cell (DbCell.str v) = Except.ok (CellVal.str v) ∧
    decode_list_cell (DbCell.str "[\"a\", \"b\"]")
      = Except.ok (CellVal.list ["a", "b"]) ∧
    load_db_data cells = ([], true) := by
  refine ⟨rfl, rfl, ?_, rfl, ?_⟩
  · simp only [decode_list_cell]
    rw [hb]
    simp [hv]
  · unfold load_db_data
    rw [herr]

/-- Witness for `C2_decode_fail_soft`: the passthrough cell `"oops"` and a
one-cell column whose `[`-prefixed value is malformed. -/
theorem C2_decode_fail_soft_witness :
    ("oops" : String) ≠ "" ∧ startsWithBracket "oops" = false ∧
    decode_column [DbCell.str "[oops"] = Except.error "JSONDecodeError" ∧
    decode_list_cell (DbCell.str "oops") = Except.ok (CellVal.str "oops") ∧
    load_db_data [DbCell.str "[oops"] = ([], true) :=
  ⟨by decide, rfl, rfl,
    (C2_decode_fail_soft "oops" [DbCell.str "[oops"] "JSONDecodeError"
      (by decide) rfl rfl).2.2.1,
    (C2_decode_fail_soft "oops" [DbCell.str "[oops"] "JSONDecodeError"
      (by decide) rfl rfl).2.2.2.2⟩

/-- C10: the detail-panel comment resolution returns the auxiliary
`base_comment` text only for a title containing the fixed marker `"이촌"`,
and every title not containing the marker gets the static unavailable
string.  (The hypotheses keep the auxiliary text distinct from the two
static strings, so "returns the fallback text" is unambiguous.) -/
theorem C10_resolveComment (title base : String) (hbase : base ≠ "")
    (hb2 : base ≠ "중개사 상세 설명이 등록되지 않은 매물입니다.") :
    (pyIn "이촌" title = false →
      resolveComment title base = "중개사 상세 설명이 등록되지 않은 매물입니다.") ∧
    (pyIn "이촌" title = true → resolveComment title base = base) ∧
    (resolveComment title base = base → pyIn "이촌" title = true) := by
  unfold resolveComment
  refine ⟨?_, ?_, ?_⟩
  · intro h
    rw [if_neg (by simp [h])]
  · intro h
    rw [if_pos h, if_pos hbase]
  · intro h
    cases hp : pyIn "이촌" title with
    | false =>
      rw [if_neg (by simp [hp])] at h
      exact absurd h.symm hb2
    | true => rfl

/-- Witness for `C10_resolveComment` at a marker-containing title. -/
theorem C10_resolveComment_witness :
    ("좋은 매물입니다" : String) ≠ "" ∧
    pyIn "이촌" "동부이촌동 상가" = true ∧
    (pyIn "이촌" "동부이촌동 상가" = true →
      resolveComment "동부이촌동 상가" "좋은 매물입니다" = "좋은 매물입니다") :=
  ⟨by decide, by decide,
    (C10_resolveComment "동부이촌동 상가" "좋은 매물입니다"
      (by decide) (by decide)).2.1⟩


theorem catStep_eq (sel : String) (df : List Row) :
    (if sel ≠ "전체" then df.filter (fun r => r.business_middle_code_name = sel) else df)
      = df.filter (catPred sel) := by
  by_cases h : sel = "전체"
  · rw [if_neg (by simp [h])]
    exact (List.filter_eq_self.mpr (fun r _ => by simp [catPred, h])).symm
  · rw [if_pos h]
    exact List.filter_congr (fun r _ => by simp [catPred, h])

theorem stationStep_eq (search : String) (df : List Row) :
    (if search ≠ "" ∧ (true : Bool) then
        df.filter (fun r =>
          match r.near_subway_station with
          | some s => simpleSearch search.toList s.toList
          | none => false)
      else df) = df.filter (stationPred search) := by
  by_cases h : search = ""
  · rw [if_neg (by simp [h])]
    exact (List.filter_eq_self.mpr (fun r _ => by simp [stationPred, h])).symm
  · rw [if_pos ⟨h, rfl⟩]
    exact List.filter_congr (fun r _ => by simp [stationPred, h])

theorem premStep_eq (hide : Bool) (df : List Row) :
    (if hide ∧ (true : Bool) then
        df.filter (fun r => r.is_premium_closed = false) else df)
      = df.filter (premPred hide) := by
  cases hide
  · rw [if_neg (by simp)]
    exact (List.filter_eq_self.mpr (fun r _ => by simp [premPred])).symm
  · rw [if_pos (by simp)]
    exact List.filter_congr
      (fun r _ => by cases hr : r.is_premium_closed <;> simp [premPred, hr])

theorem f_df_eq_applyFilters (sel search : String) (hide : Bool) (lo hi : ℚ)
    (df : List Row) :
    f_df sel search true hide true true lo hi df
      = applyFilters (fourPreds sel search hide lo hi) df := by
  unfold f_df
  dsimp only
  rw [catStep_eq, stationStep_eq, premStep_eq, if_pos rfl]
  rfl

/-- C4: with all columns present, the filter block equals the conjunction
(logical AND) of the four row predicates, each absent criterion is the
constantly-true pass-through, and applying any permutation of the four
predicates yields the same filtered rows. -/
theorem C4_filter_order_independence (sel search : String) (hide : Bool) (lo hi : ℚ)
    (df : List Row) (ps : List (Row → Bool))
    (hperm : ps.Perm (fourPreds sel search hide lo hi)) :
    applyFilters ps df = f_df sel search true hide true true lo hi df ∧
    f_df sel search true hide true true lo hi df
      = df.filter (fun r => catPred sel r &&
          (stationPred search r && (premPred hide r && rentPred lo hi r))) ∧
    (sel = "전체" → ∀ r, catPred sel r = true) ∧
    (search = "" → ∀ r, stationPred search r = true) ∧
    (hide = false → ∀ r, premPred hide r = true) := by
  have hall : (fun r => ps.all (fun p => p r))
      = (fun r => (fourPreds sel search hide lo hi).all (fun p => p r)) :=
    funext (fun r => all_apply_perm hperm r)
  refine ⟨?_, ?_, ?_, ?_, ?_⟩
  · rw [applyFilters_eq_filter_all, hall, ← applyFilters_eq_filter_all,
      f_df_eq_applyFilters]
  · rw [f_df_eq_applyFilters, applyFilters_eq_filter_all]
    exact List.filter_congr (fun r _ => by simp [fourPreds])
  · intro h r; simp [catPred, h]
  · intro h r; simp [stationPred, h]
  · intro h r; simp [premPred, h]

/-- Witness for `C4_filter_order_independence`: swapping the category and
location predicates over a two-row table. -/
theorem C4_filter_order_independence_witness :
    [stationPred "이촌", catPred "카페", premPred true, rentPred 0 100].Perm
        (fourPreds "카페" "이촌" true 0 100) ∧
    applyFilters [stationPred "이촌", catPred "카페", premPred true, rentPred 0 100]
        [row1, row2]
      = f_df "카페" "이촌" true true true true 0 100 [row1, row2] :=
  have hp : [stationPred "이촌", catPred "카페", premPred true,
      rentPred 0 100].Perm (fourPreds "카페" "이촌" true 0 100) :=
    List.Perm.swap (catPred "카페") (stationPred "이촌") [premPred true, rentPred 0 100]
  ⟨hp, (C4_filter_order_independence "카페" "이촌" true 0 100 [row1, row2] _ hp).1⟩

/-- C7: with the exclude-undisclosed-premium option enabled (and all other
criteria absent), the filter block keeps exactly the rows whose flag is
`false`; with the flag column absent the option is a no-op. -/
theorem C7_premium_filter (rows : List Row) (r : Row) :
    f_df "전체" "" true true true false 0 0 rows
      = rows.filter (fun r => r.is_premium_closed = false) ∧
    (r ∈ f_df "전체" "" true true true false 0 0 rows ↔
      r ∈ rows ∧ r.is_premium_closed = false) ∧
    f_df "전체" "" true true false false 0 0 rows = rows := by
  have h : f_df "전체" "" true true true false 0 0 rows
      = rows.filter (fun r => r.is_premium_closed = false) := by
    unfold f_df
    dsimp only
    rw [if_neg (show ¬(false = true) by simp),
      if_pos (show true = true ∧ true = true from ⟨rfl, rfl⟩),
      if_neg (show ¬("" ≠ "" ∧ true = true) by simp),
      if_neg (show ¬("전체" ≠ "전체") by simp)]
  refine ⟨h, ?_, ?_⟩
  · rw [h]
    simp [List.mem_filter]
  · unfold f_df
    dsimp only
    rw [if_neg (show ¬(false = true) by simp),
      if_neg (show ¬(true = true ∧ false = true) by simp),
      if_neg (show ¬("" ≠ "" ∧ true = true) by simp),
      if_neg (show ¬("전체" ≠ "전체") by simp)]

theorem foldl_min_le_init (xs : List ℚ) (a : ℚ) : xs.foldl min a ≤ a := by
  induction xs generalizing a with
  | nil => exact le_refl a
  | cons y ys ih => exact le_trans (ih (min a y)) (min_le_left a y)

theorem foldl_min_le_mem (xs : List ℚ) (a x : ℚ) : x ∈ xs → xs.foldl min a ≤ x := by
  induction xs generalizing a with
  | nil => intro hx; cases hx
  | cons y ys ih =>
    intro hx
    rcases List.mem_cons.mp hx with h | h
    · subst h
      exact le_trans (foldl_min_le_init ys (min a x)) (min_le_right a x)
    · exact ih (min a y) h

theorem init_le_foldl_max (xs : List ℚ) (a : ℚ) : a ≤ xs.foldl max a := by
  induction xs generalizing a with
  | nil => exact le_refl a
  | cons y ys ih => exact le_trans (le_max_left a y) (ih (max a y))

theorem mem_le_foldl_max (xs : List ℚ) (a x : ℚ) : x ∈ xs → x ≤ xs.foldl max a := by
  induction xs generalizing a with
  | nil => intro hx; cases hx
  | cons y ys ih =>
    intro hx
    rcases List.mem_cons.mp hx with h | h
    · subst h
      exact le_trans (le_max_right a x) (init_le_foldl_max ys (max a x))
    · exact ih (max a y) h

theorem colMinD_le_mem (l : List ℚ) (x : ℚ) (hx : x ∈ l) : colMinD l ≤ x := by
  cases l with
  | nil => cases hx
  | cons y ys =>
    rcases List.mem_cons.mp hx with h | h
    · subst h; exact foldl_min_le_init ys x
    · exact foldl_min_le_mem ys y x h

theorem mem_le_colMaxD (l : List ℚ) (x : ℚ) (hx : x ∈ l) : x ≤ colMaxD l := by
  cases l with
  | nil => cases hx
  | cons y ys =>
    rcases List.mem_cons.mp hx with h | h
    · subst h; exact init_le_foldl_max ys x
    · exact mem_le_foldl_max ys y x h

/-- C8: when the pre-filter minimum and maximum of the display-unit rent
column coincide, the collapsed range `(min, max)` passes every row: the
filter block returns the full dataset unchanged and the result is not
empty. -/
theorem C8_degenerate_range (df : List Row) (hne : df ≠ [])
    (heq : min_rent df = max_rent df) :
    f_df "전체" "" true false true true (min_rent df) (max_rent df) df = df ∧
    f_df "전체" "" true false true true (min_rent df) (max_rent df) df ≠ [] := by
  have h : f_df "전체" "" true false true true (min_rent df) (max_rent df) df = df := by
    unfold f_df
    dsimp only
    rw [if_pos (show true = true from rfl),
      if_neg (show ¬(false = true ∧ true = true) by simp),
      if_neg (show ¬("" ≠ "" ∧ true = true) by simp),
      if_neg (show ¬("전체" ≠ "전체") by simp)]
    apply List.filter_eq_self.mpr
    intro r hr
    have h1 : min_rent df ≤ r.monthly_rent_disp :=
      colMinD_le_mem _ _ (List.mem_map_of_mem _ hr)
    have h2 : r.monthly_rent_disp ≤ max_rent df :=
      mem_le_colMaxD _ _ (List.mem_map_of_mem _ hr)
    simp [rentPred, h1, h2]
  exact ⟨h, by rw [h]; exact hne⟩

/-- Witness for `C8_degenerate_range`: a two-row table whose rents agree. -/
theorem C8_degenerate_range_witness :
    [row1, row2] ≠ ([] : List Row) ∧
    min_rent [row1, row2] = max_rent [row1, row2] ∧
    f_df "전체" "" true false true true (min_rent [row1, row2])
        (max_rent [row1, row2]) [row1, row2] = [row1, row2] :=
  have he : min_rent [row1, row2] = max_rent [row1, row2] := by
    simp [min_rent, max_rent, colMinD, colMaxD, row1, row2, min_self, max_self]
  ⟨List.cons_ne_nil _ _, he,
    (C8_degenerate_range [row1, row2] (List.cons_ne_nil _ _) he).1⟩

/-- C5: whenever the filter block eliminates every row, each downstream
view degrades: the KPI count renders 0, the three aggregate KPIs render
the placeholder `"-"`, and the trend block takes its no-data branch; all
of these are total functions, so nothing raises. -/
theorem C5_empty_filter_degrades (sel search : String) (b1 b2 b3 b4 c2 c3 c4 cd : Bool)
    (lo hi : ℚ) (df : List Row) (u : String)
    (hemp : f_df sel search b1 b2 b3 b4 lo hi df = []) :
    kpi_count (f_df sel search b1 b2 b3 b4 lo hi df) = "0 건" ∧
    kpi_median_rent c2 (f_df sel search b1 b2 b3 b4 lo hi df) u = "-" ∧
    kpi_median_deposit c3 (f_df sel search b1 b2 b3 b4 lo hi df) u = "-" ∧
    kpi_mean_size c4 (f_df sel search b1 b2 b3 b4 lo hi df) = "-" ∧
    trendView cd (f_df sel search b1 b2 b3 b4 lo hi df) = none := by
  rw [hemp]
  refine ⟨rfl, ?_, ?_, ?_, ?_⟩ <;>
    simp [kpi_median_rent, kpi_median_deposit, kpi_mean_size, trendView]

/-- Witness for `C5_empty_filter_degrades`: a one-row table emptied by a
category criterion matching no row. -/
theorem C5_empty_filter_degrades_witness :
    kpi_count (f_df "식당" "" true true true true 0 100 [row1]) = "0 건" ∧
    kpi_median_rent true (f_df "식당" "" true true true true 0 100 [row1]) "만" = "-" ∧
    kpi_median_deposit true (f_df "식당" "" true true true true 0 100 [row1]) "만" = "-" ∧
    kpi_mean_size true (f_df "식당" "" true true true true 0 100 [row1]) = "-" ∧
    trendView true (f_df "식당" "" true true true true 0 100 [row1]) = none :=
  C5_empty_filter_degrades "식당" "" true true true true true true true true
    0 100 [row1] "만" rfl

theorem simpleMatchAt_no_dot (pat s : List Char) (h : '.' ∉ pat) :
    simpleMatchAt pat s = pat.isPrefixOf s := by
  induction pat generalizing s with
  | nil => cases s <;> rfl
  | cons p ps ih =>
    cases s with
    | nil => rfl
    | cons c cs =>
      have hp : p ≠ '.' := fun e => h (e ▸ List.mem_cons_self p ps)
      have hni : '.' ∉ ps := fun hm => h (List.mem_cons_of_mem p hm)
      by_cases hpc : p = c <;>
        simp [simpleMatchAt, List.isPrefixOf, ih cs hni, hp, hpc]

theorem simpleSearch_no_dot (pat s : List Char) (h : '.' ∉ pat) :
    simpleSearch pat s = containsSub s pat := by
  induction s with
  | nil => rfl
  | cons c cs ih =>
    simp [simpleSearch, containsSub, simpleMatchAt_no_dot pat (c :: cs) h, ih]

/-- C6 as stated fails on the code: `str.contains` interprets the search
text as a regular expression (`regex=True` is the pandas default), not as a
literal substring.  For the search text `"."`, `row1`'s location does not
contain `"."` as a substring, yet the row passes the location criterion. -/
theorem C6_counterexample :
    row1.near_subway_station = some "이촌역 도보 5분" ∧
    pyIn "." "이촌역 도보 5분" = false ∧
    stationPred "." row1 = true :=
  ⟨rfl, by decide, by decide⟩

/-- C6 amended: the search text is interpreted as a regular expression; for
search text free of regex metacharacters this coincides with case-sensitive
substring containment, and a row with a missing location field is excluded
(`na=False`) while a non-empty search is active. -/
theorem C6_location_filter (search : String) (r : Row)
    (hmeta : ∀ c ∈ search.toList, isRegexMeta c = false) (hne : search ≠ "") :
    stationPred search r
      = match r.near_subway_station with
        | some s => containsSub s.toList search.toList
        | none => false := by
  have hdot : '.' ∉ search.toList := by
    intro hm
    have hc := hmeta '.' hm
    simp [isRegexMeta] at hc
  cases hs : r.near_subway_station with
  | none => simp [stationPred, hne, hs]
  | some s =>
    simp [stationPred, hne, hs]
    exact simpleSearch_no_dot _ _ hdot

/-- Witness for `C6_location_filter` at the literal search text `"이촌역"`. -/
theorem C6_location_filter_witness :
    (∀ c ∈ ("이촌역" : String).toList, isRegexMeta c = false) ∧
    ("이촌역" : String) ≠ "" ∧
    (stationPred "이촌역" row1
      = match row1.near_subway_station with
        | some s => containsSub s.toList ("이촌역" : String).toList
        | none => false) :=
  ⟨by decide, by decide, C6_location_filter "이촌역" row1 (by decide) (by decide)⟩

/-- C9: one render cycle is parameterized by the single `target_unit`: all
five derived display columns come from `convert_price` at that unit, the
table's formatted prices and the detail panel's formatted prices are the
same strings, both equal to `format_price_display` of the unit-converted
raw fields at that same unit, and the KPI medians format their statistic
with that same unit. -/
theorem C9_unit_consistency (u : String) (raw : RawRow) (f : List Row) (hne : f ≠ []) :
    [(normalizeRow u raw).deposit_disp, (normalizeRow u raw).monthly_rent_disp,
     (normalizeRow u raw).premium_disp, (normalizeRow u raw).maintenance_fee_disp,
     (normalizeRow u raw).sale_disp] = disp_columns u raw ∧
    tablePriceStrings u (normalizeRow u raw)
      = [format_price_display (convert_price raw.deposit u) u,
         format_price_display (convert_price raw.monthly_rent u) u,
         format_price_display (convert_price raw.premium u) u,
         format_price_display (convert_price raw.maintenance_fee u) u] ∧
    detailPriceStrings u (normalizeRow u raw)
      = tablePriceStrings u (normalizeRow u raw) ∧
    kpi_median_rent true f u
      = format_price_display (medianList (f.map (fun r => r.monthly_rent_disp))) u ∧
    kpi_median_deposit true f u
      = format_price_display (medianList (f.map (fun r => r.deposit_disp))) u := by
  refine ⟨rfl, rfl, rfl, ?_, ?_⟩ <;>
    simp [kpi_median_rent, kpi_median_deposit, hne]

/-- Witness for `C9_unit_consistency` at the minor unit over a one-row table. -/
theorem C9_unit_consistency_witness :
    ([row1] : List Row) ≠ [] ∧
    detailPriceStrings "만" (normalizeRow "만" rawRow1)
      = tablePriceStrings "만" (normalizeRow "만" rawRow1) ∧
    kpi_median_rent true [row1] "만"
      = format_price_display (medianList ([row1].map (fun r => r.monthly_rent_disp))) "만" :=
  ⟨List.cons_ne_nil _ _,
    (C9_unit_consistency "만" rawRow1 [row1] (List.cons_ne_nil _ _)).2.2.1,
    (C9_unit_consistency "만" rawRow1 [row1] (List.cons_ne_nil _ _)).2.2.2.1⟩

end Theorems

end NemoStore
